import Mathlib

/-!
Verification of the ephemeris core of StarCharter (`src/astroGraphics/ephemeris.c`).

The development shallowly embeds the three stages of the code:

* the loader loop of `ephemerides_fetch` (line filtering, label emission,
  point storage, the zero-data fatal error);
* the coverage mapper of `ephemerides_fetch` (RA/Dec occupancy bins, the
  four bounding scans around the antipodal point, bin-to-angle conversion
  and RA normalisation);
* the viewport planner of `ephemerides_fetch` (projection choice, aspect
  ratio, declination clamping, style overrides) and the tick/label emission
  of `plot_ephemeris` (exclusion rectangles, label priority scores).

Machine doubles are modelled as exact rationals (`ℚ`); the C cast
`(int)` is modelled as truncation towards zero.  External collaborators
(the ephemeris generator, `plane_project`, `find_mean_position`,
`inv_julian_day`) are interface points: their outputs are taken as inputs
of the embedded functions.
-/

namespace StarCharter

/-! ### EphemerisLoader: line filtering and the zero-data fatal error -/

/-- Truncation towards zero, the semantics of the C cast `(int)` applied to a
nonnegative-or-negative double (here an exact rational). -/
def cTrunc (q : ℚ) : ℤ := if 0 ≤ q then ⌊q⌋ else -⌊-q⌋

/-- A line of generator output is accepted when, after skipping leading
characters in the range `(0, ' ']` (the loop
`while ((*scan > '\0') && (*scan <= ' ')) scan++;`), it is neither empty
(blank line) nor starts with the comment marker. -/
def lineAccepted (line : String) : Bool :=
  let scan := line.data.dropWhile (fun ch => decide (0 < ch.toNat) && decide (ch.toNat ≤ 32))
  match scan with
  | [] => false
  | ch :: _ => decide (ch ≠ '#')

/-- Reading one track: keep the accepted lines; if none were accepted the run
is aborted through `stch_fatal` / `exit(1)`, modelled as an `Except.error`
carrying the diagnostic string of the call site. -/
def fetchTrackLines (lines : List String) : Except String (List String) :=
  let accepted := lines.filter lineAccepted
  if accepted.length = 0 then Except.error "ephemeris-compute-de430 returned no data"
  else Except.ok accepted

/-- Reading all requested tracks in order; a fatal error on any track aborts
the whole run (`exit(1)` never reaches later tracks, and no chart is drawn). -/
def fetchAllTracks : List (List String) → Except String (List (List String))
  | [] => Except.ok []
  | t :: ts =>
    match fetchTrackLines t with
    | Except.error e => Except.error e
    | Except.ok acc =>
      match fetchAllTracks ts with
      | Except.error e => Except.error e
      | Except.ok rest => Except.ok (acc :: rest)

/-- Generous capacity estimate computed before reading:
`(int) (20 + (jd_end - jd_start) / jd_step)`. -/
def capacityEstimate (jd_start jd_end jd_step : ℚ) : ℤ :=
  cTrunc (20 + (jd_end - jd_start) / jd_step)

/-- Indices at which accepted lines are stored: `line_counter` is incremented
once per accepted line, and the point is written at the counter's value
before the increment. -/
def storeIndices : List String → ℕ → List ℕ
  | [], _ => []
  | l :: ls, counter =>
    if lineAccepted l then counter :: storeIndices ls (counter + 1)
    else storeIndices ls counter

/-- Store indices of a whole track, starting from `line_counter = 0`. -/
def traceStoreIndices (lines : List String) : List ℕ := storeIndices lines 0

/-! ### EphemerisLoader: calendar labels along a track -/

/-- Calendar date of one accepted ephemeris point, as produced by the external
`inv_julian_day` conversion (an interface point: the loader only reads the
`year`, `month` and `day` components). -/
structure DateRow where
  day : ℕ
  month : ℕ
  year : ℕ
deriving DecidableEq

/-- Modelled from the spec: `get_month_name` (a text utility outside the
supplied source) returns the English month name; the labels use its first
three characters, the "3-letter month abbreviation" of the spec. -/
def monthName : ℕ → String
  | 1 => "January"
  | 2 => "February"
  | 3 => "March"
  | 4 => "April"
  | 5 => "May"
  | 6 => "June"
  | 7 => "July"
  | 8 => "August"
  | 9 => "September"
  | 10 => "October"
  | 11 => "November"
  | 12 => "December"
  | _ => ""

/-- Candidate label text for one point, given the previously attached label
`prev`.  Returns the text and the `sub_month_label` flag.  Mirrors the
`snprintf` cascade: day-of-month labels (`"%.0f"` of `floor(day / 7.) * 7`)
for `day > 6`; month plus year (`"%.3s %d"`) in January or while no label has
been attached yet; month only (`"%.3s"`) otherwise. -/
def mkLabel (prev : String) (r : DateRow) : String × Bool :=
  if r.day > 6 then (toString (r.day / 7 * 7), true)
  else if r.month = 1 ∨ prev = "" then
    ((monthName r.month).take 3 ++ " " ++ toString r.year, false)
  else ((monthName r.month).take 3, false)

/-- One step of the label-attachment loop.  The candidate is attached exactly
when `strncmp(label, previous_label, 3) != 0` and
`previous_label[0] != '\0' || day == 1`; attaching also replaces the
remembered previous label.  Returns the attached label (with its
`sub_month_label` flag) and the new `previous_label`. -/
def labelStep (prev : String) (r : DateRow) : Option (String × Bool) × String :=
  let cand := mkLabel prev r
  if (cand.1.take 3 ≠ prev.take 3) ∧ (prev ≠ "" ∨ r.day = 1) then
    (some cand, cand.1)
  else (none, prev)

/-- Label attachment along a track with explicit `previous_label` state. -/
def labelTrackAux (prev : String) : List DateRow → List (Option (String × Bool))
  | [] => []
  | r :: rs =>
    let step := labelStep prev r
    step.1 :: labelTrackAux step.2 rs

/-- Label attachment along a whole track: `previous_label` starts empty
(`const char *previous_label = "";`). -/
def labelTrack (rs : List DateRow) : List (Option (String × Bool)) :=
  labelTrackAux "" rs

/-! ### CoverageMapper: occupancy bins and the bounding scans -/

/-- Number of RA occupancy bins: `int ra_bins = 24 * 8;`. -/
def raBins : ℕ := 24 * 8

/-- Number of Dec occupancy bins: `int dec_bins = 18 * 8;`. -/
def decBins : ℕ := 18 * 8

/-- RA occupancy bin of a point, written with the normalised coordinate
`u = ra / (2π)` (the division by the exact real `2π` is carried out before
the embedding, so `u ∈ [0, 1)` exactly when `ra ∈ [0, 2π)`):
`(int) (ra / (2 * M_PI) * ra_bins)`. -/
def ra_bin_of (u : ℚ) : ℤ := cTrunc (u * raBins)

/-- Dec occupancy bin of a point, written with the normalised coordinate
`t = dec / π` (so `t ∈ [-1/2, 1/2]` exactly when `dec ∈ [-π/2, π/2]`):
`(int) ((dec + (M_PI / 2)) / M_PI * dec_bins)`. -/
def dec_bin_of (t : ℚ) : ℤ := cTrunc ((t + 1 / 2) * decBins)

/-- First index probed by the forward RA scan:
`int ra_bin_min = ra_anti_centre_bin + 1;` followed immediately by the
access `ra_usage[ra_bin_min]`, with no wraparound applied first. -/
def raFwdStart (ra_anti_centre_bin : ℕ) : ℕ := ra_anti_centre_bin + 1

/-- Result of one bounding scan: either the first occupied bin encountered,
or the sentinel was reached unoccupied and `s->ephemeris_autoscale = 0`
was executed before breaking out of the loop. -/
inductive ScanResult where
  | found (bin : ℕ)
  | disabled
deriving DecidableEq

/-- Forward RA scan (`ra_bin_min`): probe the current bin; stop at the first
occupied bin; if the (unoccupied) centroid bin is reached, disable autoscale
and stop; otherwise advance to `(idx + 1) % ra_bins`.  The `fuel` argument
is an upper bound on the number of probes, shown sufficient below; the C
loop has no such bound. -/
def scanRaFwd (usage : ℕ → Bool) (bins sentinel : ℕ) : ℕ → ℕ → Option ScanResult
  | 0, _ => none
  | fuel + 1, idx =>
    if usage idx then some (ScanResult.found idx)
    else if idx = sentinel then some ScanResult.disabled
    else scanRaFwd usage bins sentinel fuel ((idx + 1) % bins)

/-- Backward RA scan (`ra_bin_max`): as the forward scan but stepping to
`(idx + ra_bins - 1) % ra_bins`. -/
def scanRaBack (usage : ℕ → Bool) (bins sentinel : ℕ) : ℕ → ℕ → Option ScanResult
  | 0, _ => none
  | fuel + 1, idx =>
    if usage idx then some (ScanResult.found idx)
    else if idx = sentinel then some ScanResult.disabled
    else scanRaBack usage bins sentinel fuel ((idx + bins - 1) % bins)

/-- Upward Dec scan (`dec_bin_min`): from bin 0, stop at the first occupied
bin; disable when the last bin (`dec_bins - 1`) is reached unoccupied. -/
def scanDecUp (usage : ℕ → Bool) (bins : ℕ) : ℕ → ℕ → Option ScanResult
  | 0, _ => none
  | fuel + 1, idx =>
    if usage idx then some (ScanResult.found idx)
    else if idx = bins - 1 then some ScanResult.disabled
    else scanDecUp usage bins fuel (idx + 1)

/-- Downward Dec scan (`dec_bin_max`): from the last bin, stop at the first
occupied bin; disable when bin 0 is reached unoccupied. -/
def scanDecDown (usage : ℕ → Bool) : ℕ → ℕ → Option ScanResult
  | 0, _ => none
  | fuel + 1, idx =>
    if usage idx then some (ScanResult.found idx)
    else if idx = 0 then some ScanResult.disabled
    else scanDecDown usage fuel (idx - 1)

/-! ### Bin-to-angle conversion and RA normalisation -/

/-- The loop `while (ra_max <= ra_min) ra_max += 24;`. -/
def normUp (ra_min ra_max : ℚ) : ℚ :=
  if ra_max ≤ ra_min then normUp ra_min (ra_max + 24) else ra_max
termination_by (⌈(ra_min + 24 - ra_max) / 24⌉).toNat
decreasing_by
  have h1 : (ra_min + 24 - (ra_max + 24)) / 24 = (ra_min + 24 - ra_max) / 24 - 1 := by
    ring
  have h3 : (1 : ℤ) ≤ ⌈(ra_min + 24 - ra_max) / 24⌉ := by
    exact_mod_cast Int.le_ceil_iff.mpr (by push_cast; linarith)
  rw [h1, Int.ceil_sub_one]
  omega

/-- The loop `while (ra_max > ra_min + 24) ra_max -= 24;`. -/
def normDown (ra_min ra_max : ℚ) : ℚ :=
  if ra_min + 24 < ra_max then normDown ra_min (ra_max - 24) else ra_max
termination_by (⌈(ra_max - ra_min) / 24⌉).toNat
decreasing_by
  have h1 : (ra_max - 24 - ra_min) / 24 = (ra_max - ra_min) / 24 - 1 := by
    ring
  have h3 : (2 : ℤ) ≤ ⌈(ra_max - ra_min) / 24⌉ := by
    exact_mod_cast Int.le_ceil_iff.mpr (by push_cast; linarith)
  rw [h1, Int.ceil_sub_one]
  omega

/-! ### ViewportPlanner -/

/-- Projection kinds (`SW_PROJECTION_*` constants of `chart_config.h`; their
numeric values are irrelevant here, only their identity). -/
inductive Projection where
  | flat
  | gnom
  | preset (code : ℕ)
deriving DecidableEq

/-- The fields of `chart_config` read or written by the ephemeris core. -/
structure ChartConfig where
  ephemeris_autoscale : Bool
  ra0 : ℚ
  dec0 : ℚ
  projection : Projection
  angular_width : ℚ
  aspect : ℚ
  width : ℚ
  font_size : ℚ
  mag_min : ℚ
  maximum_star_label_count : ℕ
  dso_names : Bool
  star_flamsteed_labels : Bool
deriving DecidableEq

/-- The loop `while (s->ra0 < 0) s->ra0 += 24;`. -/
def wrapUp (x : ℚ) : ℚ :=
  if x < 0 then wrapUp (x + 24) else x
termination_by (⌈-x / 24⌉).toNat
decreasing_by
  have h1 : -(x + 24) / 24 = -x / 24 - 1 := by ring
  have h3 : (1 : ℤ) ≤ ⌈-x / 24⌉ := by
    exact_mod_cast Int.le_ceil_iff.mpr (by push_cast; linarith)
  rw [h1, Int.ceil_sub_one]
  omega

/-- The loop `while (s->ra0 >= 24) s->ra0 -= 24;`. -/
def wrapDown (x : ℚ) : ℚ :=
  if 24 ≤ x then wrapDown (x - 24) else x
termination_by (⌈x / 24⌉).toNat
decreasing_by
  have h1 : (x - 24) / 24 = x / 24 - 1 := by ring
  have h3 : (1 : ℤ) ≤ ⌈x / 24⌉ := by
    exact_mod_cast Int.le_ceil_iff.mpr (by push_cast; linarith)
  rw [h1, Int.ceil_sub_one]
  omega

/-- Base angular size of the chart:
`MAX((ra_max - ra_min) * 180 / 12, dec_max - dec_min) * 1.1`, rounded up to
a full-sky 360 degrees when above 350. -/
def angularWidthBase (ra_min ra_max dec_min dec_max : ℚ) : ℚ :=
  let base := max ((ra_max - ra_min) * 180 / 12) (dec_max - dec_min) * 1.1
  if base > 350 then 360 else base

/-- The viewport planner: the block `if (s->ephemeris_autoscale) { ... }` of
`ephemerides_fetch`, lines 316-370.  Inputs are the bounding angles produced
by the scans; when autoscale is off the configuration is returned untouched. -/
def applyViewport (s : ChartConfig) (ra_min ra_max dec_min dec_max : ℚ) : ChartConfig :=
  let awb := angularWidthBase ra_min ra_max dec_min dec_max
  if s.ephemeris_autoscale then
    let ra0 := wrapDown (wrapUp ((ra_min + ra_max) / 2))
    let dec0 := (dec_min + dec_max) / 2
    let s1 : ChartConfig := { s with ra0 := ra0, dec0 := dec0 }
    let s2 : ChartConfig :=
      if awb > 22 then { s1 with star_flamsteed_labels := false } else s1
    if awb > 110 then
      -- rectangular-projection branch
      let s3 : ChartConfig :=
        { s2 with
          projection := Projection.flat
          angular_width := awb
          width := s2.width * 1.6
          font_size := s2.font_size * 0.95
          mag_min := min s2.mag_min 5
          maximum_star_label_count := 25
          dso_names := false
          aspect := min 0.5 (|dec_max - dec_min| / (|ra_max - ra_min| * 180 / 12) * 1.8) }
      let s4 : ChartConfig :=
        if |dec_max - dec_min| / (|ra_max - ra_min| * 180 / 12) > 0.5 then
          { s3 with aspect := 1, width := s3.width * 0.7 }
        else s3
      let ang_height := awb * s4.aspect
      let s5 : ChartConfig := { s4 with dec0 := max s4.dec0 (-89 + ang_height / 2) }
      { s5 with dec0 := min s5.dec0 (89 - ang_height / 2) }
    else
      -- gnomonic-projection branch
      let aspect0 := (⌈|dec_max - dec_min| / (|ra_max - ra_min| * 180 / 12) * 10⌉ : ℚ) / 10
      let aspect1 := if aspect0 < 0.5 then (0.5 : ℚ) else aspect0
      let aspect := if aspect1 > 1.5 then (1.5 : ℚ) else aspect1
      let aw0 := max ((ra_max - ra_min) * 180 / 12) ((dec_max - dec_min) / aspect) * 1.1
      let aw := if aw0 > 350 then (360 : ℚ) else aw0
      { s2 with projection := Projection.gnom, aspect := aspect, angular_width := aw }
  else s

/-- The full post-grid pipeline of `ephemerides_fetch`: run the four bounding
scans (each may clear `s->ephemeris_autoscale`; on `disabled` the loop breaks
with the index equal to the sentinel), convert the bounding bins to angles,
normalise the RA interval, and run the viewport planner.  The scan fuels are
sufficient by `scanRaFwd_total` and friends below. -/
def fetchAutoscale (s : ChartConfig) (ra_usage dec_usage : ℕ → Bool)
    (ra_centre_bin ra_anti_centre_bin : ℕ) : ChartConfig :=
  let fwd := scanRaFwd ra_usage raBins ra_centre_bin (raBins + 2) (raFwdStart ra_anti_centre_bin)
  let back := scanRaBack ra_usage raBins ra_centre_bin (raBins + 2) ra_anti_centre_bin
  let up := scanDecUp dec_usage decBins (decBins + 2) 0
  let down := scanDecDown dec_usage (decBins + 2) (decBins - 1)
  let step := fun (st : Bool × ℕ) (r : Option ScanResult) (sentinel : ℕ) =>
    match r with
    | some (ScanResult.found b) => (st.1, b)
    | _ => (false, sentinel)
  let st1 := step (s.ephemeris_autoscale, 0) fwd ra_centre_bin
  let st2 := step (st1.1, 0) back ra_centre_bin
  let st3 := step (st2.1, 0) up (decBins - 1)
  let st4 := step (st3.1, 0) down 0
  let ra_bin_min := st1.2
  let ra_bin_max := st2.2
  let dec_bin_min := st3.2
  let dec_bin_max := st4.2
  let ra_min : ℚ := ra_bin_min * 24 / raBins
  let ra_max0 : ℚ := (ra_bin_max + 1) * 24 / raBins
  let dec_min : ℚ := dec_bin_min * 180 / decBins - 90
  let dec_max : ℚ := (dec_bin_max + 1) * 180 / decBins - 90
  let ra_max := normDown ra_min (normUp ra_min ra_max0)
  applyViewport { s with ephemeris_autoscale := st4.1 } ra_min ra_max dec_min dec_max

/-! ### TrackRenderer: exclusion rectangles and label priorities
(`plot_ephemeris`) -/

/-- An axis-aligned exclusion rectangle in canvas coordinates. -/
structure Rect where
  x_min : ℚ
  x_max : ℚ
  y_min : ℚ
  y_max : ℚ
deriving DecidableEq

/-- Canvas bounding box (`s->x_min`, `s->x_max`, `s->y_min`, `s->y_max`). -/
structure Canvas where
  x_min : ℚ
  x_max : ℚ
  y_min : ℚ
  y_max : ℚ
deriving DecidableEq

/-- One ephemeris point as seen by the tick loop of `plot_ephemeris`: its
projected canvas coordinates (the output of the external `plane_project`,
an interface point) together with the label data stored by the loader. -/
structure TickPoint where
  x : ℚ
  y : ℚ
  hasText : Bool
  sub_month_label : Bool
deriving DecidableEq

/-- The test `(x < s->x_min) || (x > s->x_max) || (y < s->y_min) || (y > s->y_max)`
used both by the path loop and by the labelled-tick branch. -/
def offCanvas (c : Canvas) (x y : ℚ) : Bool :=
  decide (x < c.x_min) || decide (x > c.x_max) || decide (y < c.y_min) || decide (y > c.y_max)

/-- Tick length in canvas units:
`physical_tick_len * s->wlin / s->width` with `physical_tick_len` 0.12 cm for
sub-month labels and 0.2 cm for month-start labels. -/
def tickLen (sub_month_label : Bool) (wlin width : ℚ) : ℚ :=
  (if sub_month_label then (0.12 : ℚ) else 0.2) * wlin / width

/-- The small exclusion rectangle (±10% of the tick length) emitted for a
point of the track. -/
def smallRect (x y tick : ℚ) : Rect :=
  ⟨x - tick * 0.1, x + tick * 0.1, y - tick * 0.1, y + tick * 0.1⟩

/-- The larger exclusion rectangle (±40% of the tick length) emitted for a
labelled tick. -/
def bigRect (x y tick : ℚ) : Rect :=
  ⟨x - tick * 0.4, x + tick * 0.4, y - tick * 0.4, y + tick * 0.4⟩

/-- Exclusion rectangles emitted by one iteration of the tick loop: the small
rectangle is pushed unconditionally (lines 452-456); the labelled branch then
bails out with `continue` when the point is off the canvas (line 464), so the
±40% rectangle is pushed only for labelled, on-canvas points. -/
def tickExclusions (c : Canvas) (wlin width : ℚ) (p : TickPoint) : List Rect :=
  let tick := tickLen p.sub_month_label wlin width
  smallRect p.x p.y tick ::
    (if p.hasText && !offCanvas c p.x p.y then [bigRect p.x p.y tick] else [])

/-- Exclusion rectangles emitted by the whole tick loop, in order. -/
def plotExclusions (c : Canvas) (wlin width : ℚ) (pts : List TickPoint) : List Rect :=
  (pts.map (tickExclusions c wlin width)).flatten

/-- Label priority score of `plot_ephemeris` (lines 529-536), lower resolved
first:
`0.0123 + 1e-12 * i - 4e-6 * (!sub_month_label) - 1e-7 * (day == 14)
 - 3e-7 * (month == 1) - 2e-7 * (month == 7)
 - 1e-7 * ((month == 4) || (month == 11))`. -/
def priority (i day month : ℕ) (sub_month_label : Bool) : ℚ :=
  0.0123 + 1e-12 * i
    - 4e-6 * (if sub_month_label then 0 else 1)
    - 1e-7 * (if day = 14 then 1 else 0)
    - 3e-7 * (if month = 1 then 1 else 0)
    - 2e-7 * (if month = 7 then 1 else 0)
    - 1e-7 * (if month = 4 ∨ month = 11 then 1 else 0)

/-- Month bonus read off the spec sentence as the claim words it: graduated
bonuses for January/July (largest), then April and **October** (smaller). -/
def monthBonusClaimed (month : ℕ) : ℚ :=
  if month = 1 then 3e-7
  else if month = 7 then 2e-7
  else if month = 4 ∨ month = 10 then 1e-7
  else 0

/-- Priority score as the claim describes it (with the October bonus). -/
def priorityClaimed (i day month : ℕ) (sub_month_label : Bool) : ℚ :=
  0.0123 + 1e-12 * i
    - (if sub_month_label then 0 else 4e-6)
    - (if day = 14 then 1e-7 else 0)
    - monthBonusClaimed month

/-- Month bonus with the claim amended to match the code: January/July
(largest), then April and **November** (smaller). -/
def monthBonusAmended (month : ℕ) : ℚ :=
  if month = 1 then 3e-7
  else if month = 7 then 2e-7
  else if month = 4 ∨ month = 11 then 1e-7
  else 0

/-- Priority score as described by the amended claim. -/
def priorityAmended (i day month : ℕ) (sub_month_label : Bool) : ℚ :=
  0.0123 + 1e-12 * i
    - (if sub_month_label then 0 else 4e-6)
    - (if day = 14 then 1e-7 else 0)
    - monthBonusAmended month

/-! ### Concrete fixtures used by witnesses and counterexamples -/

/-- An empty occupancy grid: no bin is occupied. -/
def emptyUsage : ℕ → Bool := fun _ => false

/-- An occupancy grid with exactly bin 3 occupied. -/
def singleUsage : ℕ → Bool := fun b => b == 3

/-- A caller-preset configuration with autoscale enabled. -/
def sRect : ChartConfig :=
  ⟨true, 0, 0, Projection.preset 0, 0, 1, 1, 1, 6, 100, true, true⟩

/-- A caller-preset configuration with autoscale disabled. -/
def sPreset : ChartConfig :=
  ⟨false, 5, 6, Projection.preset 3, 7, 8, 9, 10, 11, 12, true, false⟩

/-- A unit canvas. -/
def canvas0 : Canvas := ⟨0, 1, 0, 1⟩

/-- An unlabelled point projecting outside `canvas0`. -/
def tickPoint0 : TickPoint := ⟨5, 5, false, false⟩

/-! ## Theorems -/

/-- C1 (counterexample): the claim attributes the smaller month bonus to
April/October, but the code grants it to April/November
(`(e->data[i].month == 4) || (e->data[i].month == 11)`): on a minor November
label the code's score differs from the claimed formula, and likewise on a
minor October label. -/
theorem C1_counterexample :
    priority 0 20 11 true ≠ priorityClaimed 0 20 11 true ∧
      priority 0 20 10 true ≠ priorityClaimed 0 20 10 true := by
  constructor <;> · norm_num [priority, priorityClaimed, monthBonusClaimed]

/-- The code's priority formula agrees everywhere with the amended
description (January/July, then April/November). -/
lemma priority_eq_amended (i day month : ℕ) (sub_month_label : Bool) :
    priority i day month sub_month_label = priorityAmended i day month sub_month_label := by
  unfold priority priorityAmended monthBonusAmended
  cases sub_month_label <;> split_ifs <;> first | contradiction | (exfalso; omega) | ring1

/-- A major April 1 label outranks (scores strictly below) every minor label
at the same track index. -/
lemma priority_major_april (i d m : ℕ) : priority i 1 4 false < priority i d m true := by
  have hL : priority i 1 4 false = 0.0123 + 1e-12 * i - 4e-6 - 1e-7 := by
    unfold priority
    norm_num
  rw [hL]
  unfold priority
  split_ifs <;> first | (exact absurd rfl (by assumption)) | linarith

/-- A major January 14 label outranks a major January 1 label. -/
lemma priority_jan14 (i : ℕ) : priority i 14 1 false < priority i 1 1 false := by
  unfold priority
  norm_num

/-- C1 (amended): the priority score combines the constant base 0.0123, the
per-index tiebreak `1e-12 * i`, a `4e-6` bonus for major labels, a `1e-7`
bonus for day 14, and graduated month bonuses for January (`3e-7`), July
(`2e-7`) and April/November (`1e-7`); consequently a major April 1 label
scores strictly below any minor label at the same track index, and a major
January 14 label scores strictly below a major January 1 label. -/
theorem C1_amended :
    (∀ i day month sub_month_label,
        priority i day month sub_month_label = priorityAmended i day month sub_month_label)
  ∧ (∀ i d m, priority i 1 4 false < priority i d m true)
  ∧ (∀ i, priority i 14 1 false < priority i 1 1 false) :=
  ⟨priority_eq_amended, priority_major_april, priority_jan14⟩

/-- C2 (code evaluated at the failing inputs): at declination exactly `+π/2`
(normalised coordinate `t = 1/2`) the Dec bin is `dec_bins = 144` itself,
outside `[0, dec_bins - 1]` — the code applies no clamp before
`dec_usage[dec_bin] = 1`; and when the antipodal bin is `ra_bins - 1 = 191`
the very first probe of the forward RA scan reads `ra_usage[192]`, an index
that is not wrapped modulo `ra_bins` before the access. -/
theorem C2_index_overflow :
    dec_bin_of (1 / 2) = (decBins : ℤ)
  ∧ ¬(dec_bin_of (1 / 2) < (decBins : ℤ))
  ∧ raFwdStart (raBins - 1) = raBins
  ∧ ¬(raFwdStart (raBins - 1) < raBins) := by
  have h1 : dec_bin_of (1 / 2) = (decBins : ℤ) := by
    unfold dec_bin_of cTrunc decBins
    norm_num
  have h2 : raFwdStart (raBins - 1) = raBins := by decide
  exact ⟨h1, by rw [h1]; exact lt_irrefl _, h2, by rw [h2]; exact lt_irrefl _⟩

/-- The loop `while (ra_max <= ra_min) ra_max += 24;` produces a value
strictly above `ra_min`. -/
lemma normUp_gt (a b : ℚ) : a < normUp a b := by
  rw [normUp]
  split
  · exact normUp_gt a (b + 24)
  · linarith
termination_by (⌈(a + 24 - b) / 24⌉).toNat
decreasing_by
  have h1 : (a + 24 - (b + 24)) / 24 = (a + 24 - b) / 24 - 1 := by ring
  have h3 : (1 : ℤ) ≤ ⌈(a + 24 - b) / 24⌉ := by
    exact_mod_cast Int.le_ceil_iff.mpr (by push_cast; linarith)
  rw [h1, Int.ceil_sub_one]
  omega

/-- The loop `while (ra_max > ra_min + 24) ra_max -= 24;` produces a value
at most `ra_min + 24`. -/
lemma normDown_le (a b : ℚ) : normDown a b ≤ a + 24 := by
  rw [normDown]
  split
  · exact normDown_le a (b - 24)
  · linarith
termination_by (⌈(b - a) / 24⌉).toNat
decreasing_by
  have h1 : (b - 24 - a) / 24 = (b - a) / 24 - 1 := by ring
  have h3 : (2 : ℤ) ≤ ⌈(b - a) / 24⌉ := by
    exact_mod_cast Int.le_ceil_iff.mpr (by push_cast; linarith)
  rw [h1, Int.ceil_sub_one]
  omega

/-- The loop `while (ra_max > ra_min + 24) ra_max -= 24;` keeps the value
strictly above `ra_min` whenever it starts strictly above. -/
lemma normDown_gt (a b : ℚ) (h : a < b) : a < normDown a b := by
  rw [normDown]
  split
  · exact normDown_gt a (b - 24) (by linarith)
  · exact h
termination_by (⌈(b - a) / 24⌉).toNat
decreasing_by
  have h1 : (b - 24 - a) / 24 = (b - a) / 24 - 1 := by ring
  have h3 : (2 : ℤ) ≤ ⌈(b - a) / 24⌉ := by
    exact_mod_cast Int.le_ceil_iff.mpr (by push_cast; linarith)
  rw [h1, Int.ceil_sub_one]
  omega

/-- C8: for any pair of RA bounding bins, after converting bin indices to
hours (`ra_bin_min * 24. / ra_bins` and `(ra_bin_max + 1) * 24. / ra_bins`)
and running the two normalisation loops, `ra_max` strictly exceeds `ra_min`
and the RA span is at most 24 hours. -/
theorem C8_ra_normalisation (ra_bin_min ra_bin_max : ℕ) :
    (ra_bin_min : ℚ) * 24 / raBins <
        normDown ((ra_bin_min : ℚ) * 24 / raBins)
          (normUp ((ra_bin_min : ℚ) * 24 / raBins) (((ra_bin_max : ℚ) + 1) * 24 / raBins))
  ∧ normDown ((ra_bin_min : ℚ) * 24 / raBins)
        (normUp ((ra_bin_min : ℚ) * 24 / raBins) (((ra_bin_max : ℚ) + 1) * 24 / raBins))
      - (ra_bin_min : ℚ) * 24 / raBins ≤ 24 := by
  constructor
  · exact normDown_gt _ _ (normUp_gt _ _)
  · have h := normDown_le ((ra_bin_min : ℚ) * 24 / raBins)
      (normUp ((ra_bin_min : ℚ) * 24 / raBins) (((ra_bin_max : ℚ) + 1) * 24 / raBins))
    linarith

/-- C4: a track whose generator output contains no accepted line aborts the
whole run with the diagnostic naming ephemeris-compute-de430, and no later
track is processed (no partial chart); when every track has at least one
accepted line, the run continues with all tracks read. -/
theorem C4_zero_data_fatal :
    (∀ tss : List (List String), (∃ t ∈ tss, (t.filter lineAccepted).length = 0) →
        fetchAllTracks tss = Except.error "ephemeris-compute-de430 returned no data")
  ∧ (∀ tss : List (List String), (∀ t ∈ tss, (t.filter lineAccepted).length ≠ 0) →
        ∃ res, fetchAllTracks tss = Except.ok res) := by
  constructor
  · intro tss
    induction tss with
    | nil => rintro ⟨t, ht, -⟩; exact absurd ht (List.not_mem_nil t)
    | cons t ts ih =>
      rintro ⟨u, hu, hlen⟩
      rcases List.mem_cons.mp hu with rfl | hmem
      · simp [fetchAllTracks, fetchTrackLines, hlen]
      · by_cases hz : (t.filter lineAccepted).length = 0
        · simp [fetchAllTracks, fetchTrackLines, hz]
        · have herr := ih ⟨u, hmem, hlen⟩
          simp [fetchAllTracks, fetchTrackLines, hz, herr]
  · intro tss
    induction tss with
    | nil => exact fun _ => ⟨[], rfl⟩
    | cons t ts ih =>
      intro hall
      have ht := hall t (List.mem_cons_self t ts)
      obtain ⟨res, hres⟩ := ih fun u hu => hall u (List.mem_cons_of_mem t hu)
      exact ⟨t.filter lineAccepted :: res, by
        simp [fetchAllTracks, fetchTrackLines, ht, hres]⟩

/-- C4 (witness): a single track consisting of one blank line is fatal; a
single track with one data line succeeds. -/
theorem C4_zero_data_fatal_witness :
    fetchAllTracks [[""]] = Except.error "ephemeris-compute-de430 returned no data"
  ∧ ∃ res, fetchAllTracks [["1 2 3"]] = Except.ok res :=
  ⟨C4_zero_data_fatal.1 [[""]] ⟨[""], by decide, by decide⟩,
   C4_zero_data_fatal.2 [["1 2 3"]] (by decide)⟩

/-- Indices handed to `data[line_counter]` stay below the starting counter
plus the number of accepted lines. -/
lemma storeIndices_lt (ls : List String) :
    ∀ c idx, idx ∈ storeIndices ls c → idx < c + (ls.filter lineAccepted).length := by
  induction ls with
  | nil => intro c idx h; exact absurd h (List.not_mem_nil idx)
  | cons l ls ih =>
    intro c idx h
    cases hl : lineAccepted l with
    | true =>
      rw [storeIndices, if_pos hl] at h
      have hflt : (List.filter lineAccepted (l :: ls)).length
          = (List.filter lineAccepted ls).length + 1 := by
        simp [List.filter_cons, hl]
      rcases List.mem_cons.mp h with rfl | hmem
      · omega
      · have h2 := ih (c + 1) idx hmem
        omega
    | false =>
      rw [storeIndices, if_neg (by simp [hl])] at h
      have h2 := ih c idx h
      have hflt : (List.filter lineAccepted (l :: ls)).length
          = (List.filter lineAccepted ls).length := by
        simp [List.filter_cons, hl]
      omega

/-- C10 (counterexample): with `jd_start = jd_end = 0` the capacity estimate
is 20, yet a generator stream of 21 accepted lines stores a point at index
20, which is not below the estimate — the reading loop has no bounds check. -/
theorem C10_counterexample :
    20 ∈ traceStoreIndices (List.replicate 21 "1 2 3")
  ∧ ¬((20 : ℤ) < capacityEstimate 0 0 0.5) := by
  constructor
  · decide
  · have h : capacityEstimate 0 0 0.5 = 20 := by
      unfold capacityEstimate cTrunc
      norm_num
    rw [h]
    exact lt_irrefl _

/-- C10 (amended): every accepted data line is stored at an index strictly
below the capacity estimate `(int)(20 + (jd_end - jd_start) / jd_step)`
provided the stream's accepted-line count does not exceed that estimate; the
loop itself enforces no bound. -/
theorem C10_amended (lines : List String) (jd_start jd_end : ℚ)
    (h : (((lines.filter lineAccepted).length : ℤ)) ≤ capacityEstimate jd_start jd_end 0.5) :
    ∀ idx ∈ traceStoreIndices lines, (idx : ℤ) < capacityEstimate jd_start jd_end 0.5 := by
  intro idx hidx
  have := storeIndices_lt lines 0 idx hidx
  omega

/-- C10 (witness): a single accepted line lands at index 0, below the
estimate 20 for `jd_start = jd_end = 0`. -/
theorem C10_amended_witness :
    ((([ "1 2 3" ] : List String).filter lineAccepted).length : ℤ)
        ≤ capacityEstimate 0 0 0.5
  ∧ ∀ idx ∈ traceStoreIndices ["1 2 3"], (idx : ℤ) < capacityEstimate 0 0 0.5 := by
  have hcap : capacityEstimate 0 0 0.5 = 20 := by
    unfold capacityEstimate cTrunc
    norm_num
  have hlen : ((([ "1 2 3" ] : List String).filter lineAccepted).length : ℤ)
      ≤ capacityEstimate 0 0 0.5 := by
    rw [hcap]
    decide
  exact ⟨hlen, C10_amended ["1 2 3"] 0 0 hlen⟩

/-- C6 (counterexample): `tickPoint0` projects outside `canvas0`, yet the
tick loop still emits its small exclusion rectangle — the ±10% rectangle at
lines 452-456 is pushed before any in-view test, so an out-of-view point
does contribute one, contrary to the claim. -/
theorem C6_counterexample :
    offCanvas canvas0 tickPoint0.x tickPoint0.y = true
  ∧ plotExclusions canvas0 1 1 [tickPoint0] ≠ [] := by
  constructor
  · decide
  · intro h
    simp [plotExclusions, tickExclusions, tickPoint0] at h

/-- C6 (amended): every track point contributes its small (±10% of tick
length) exclusion rectangle whether or not its projection lies inside the
canvas view; an out-of-view point contributes only that small rectangle,
while a labelled in-view point additionally contributes the ±40%
rectangle. -/
theorem C6_amended (c : Canvas) (wlin width : ℚ) (pts : List TickPoint)
    (p : TickPoint) (hp : p ∈ pts) :
    smallRect p.x p.y (tickLen p.sub_month_label wlin width) ∈ plotExclusions c wlin width pts
  ∧ (offCanvas c p.x p.y = true →
      tickExclusions c wlin width p
        = [smallRect p.x p.y (tickLen p.sub_month_label wlin width)])
  ∧ (p.hasText = true → offCanvas c p.x p.y = false →
      bigRect p.x p.y (tickLen p.sub_month_label wlin width)
        ∈ tickExclusions c wlin width p) := by
  refine ⟨?_, ?_, ?_⟩
  · refine List.mem_flatten.mpr ⟨tickExclusions c wlin width p, List.mem_map_of_mem _ hp, ?_⟩
    simp [tickExclusions]
  · intro hoff
    simp [tickExclusions, hoff]
  · intro htext hoff
    simp [tickExclusions, htext, hoff]

/-- C6 (witness): a labelled in-view point at the canvas centre contributes
both rectangles; the amended theorem applied to the singleton track. -/
theorem C6_amended_witness :
    smallRect (1/2) (1/2) (tickLen false 1 1)
        ∈ plotExclusions canvas0 1 1 [⟨1/2, 1/2, true, false⟩]
  ∧ (offCanvas canvas0 (1/2) (1/2) = true →
      tickExclusions canvas0 1 1 ⟨1/2, 1/2, true, false⟩
        = [smallRect (1/2) (1/2) (tickLen false 1 1)])
  ∧ ((true : Bool) = true → offCanvas canvas0 (1/2) (1/2) = false →
      bigRect (1/2) (1/2) (tickLen false 1 1)
        ∈ tickExclusions canvas0 1 1 ⟨1/2, 1/2, true, false⟩) :=
  C6_amended canvas0 1 1 [⟨1/2, 1/2, true, false⟩] ⟨1/2, 1/2, true, false⟩
    (List.mem_singleton.mpr rfl)

/-- Lower bound companion to Mathlib's `Nat.toDigitsCore_length`: a number at
least `b ^ e` needs at least `e + 1` digits. -/
lemma toDigitsCore_length_lower (b : ℕ) (hb : 2 ≤ b) :
    ∀ f n e, n < f → b ^ e ≤ n → e + 1 ≤ (Nat.toDigitsCore b f n []).length := by
  intro f
  induction f with
  | zero => intro n e h _; omega
  | succ f ih =>
    intro n e hnf hbe
    by_cases hdiv : n / b = 0
    · have hlen : (Nat.toDigitsCore b (f + 1) n []).length = 1 := by
        simp [Nat.toDigitsCore, hdiv]
      have hb0 : 0 < b := by omega
      have hnb : n < b := by
        by_contra hge
        push_neg at hge
        have : 1 ≤ n / b := (Nat.one_le_div_iff hb0).mpr hge
        omega
      have he : e = 0 := by
        by_contra hne
        have h1 : b ≤ b ^ e := Nat.le_self_pow hne b
        omega
      omega
    · have hstep : Nat.toDigitsCore b (f + 1) n []
          = Nat.toDigitsCore b f (n / b) [Nat.digitChar (n % b)] := by
        simp [Nat.toDigitsCore, hdiv]
      have hlen : (Nat.toDigitsCore b f (n / b) [Nat.digitChar (n % b)]).length
          = (Nat.toDigitsCore b f (n / b) []).length + 1 :=
        Nat.toDigitsCore_lens_eq b f (n / b) _ []
      cases e with
      | zero =>
        rw [hstep, hlen]
        omega
      | succ e =>
        have hb0 : 0 < b := by omega
        have hle : b ^ e ≤ n / b := by
          rw [Nat.le_div_iff_mul_le hb0]
          calc b ^ e * b = b ^ (e + 1) := by rw [pow_succ]
          _ ≤ n := hbe
        have hpos : 0 < n := lt_of_lt_of_le (Nat.pos_pow_of_pos (e + 1) (by omega)) hbe
        have hlt : n / b < f := by
          have h1 : n / b < n := Nat.div_lt_self hpos (by omega)
          omega
        have := ih (n / b) e hlt hle
        rw [hstep, hlen]
        omega

/-- The decimal rendering of a year in `[1000, 9999]` has exactly four
characters. -/
lemma repr_length_four (y : ℕ) (h1 : 1000 ≤ y) (h2 : y < 10000) :
    (Nat.repr y).length = 4 := by
  have hup : (Nat.repr y).length ≤ 4 := Nat.repr_length y 4 (by norm_num) (by omega)
  have hlow : 3 + 1 ≤ (Nat.toDigitsCore 10 (y + 1) y []).length := by
    refine toDigitsCore_length_lower 10 (by norm_num) (y + 1) y 3 (by omega) ?_
    norm_num
    omega
  have heq : (Nat.repr y).length = (Nat.toDigitsCore 10 (y + 1) y []).length := rfl
  omega

/-- Unfolding lemma for `labelTrackAux` on a cons cell. -/
lemma labelTrackAux_cons (prev : String) (r : DateRow) (rs : List DateRow) :
    labelTrackAux prev (r :: rs)
      = (labelStep prev r).1 :: labelTrackAux (labelStep prev r).2 rs := rfl

/-- While no label has been attached, a candidate can only be attached on day
1, and then it carries the month abbreviation and the year. -/
lemma labelTrackAux_first :
    ∀ (rs : List DateRow) (j : ℕ) (lab : String) (sub : Bool),
      (labelTrackAux "" rs).get? j = some (some (lab, sub)) →
      (∀ k, k < j → (labelTrackAux "" rs).get? k = some none) →
      ∃ r, rs.get? j = some r ∧ r.day = 1 ∧ sub = false ∧
        lab = (monthName r.month).take 3 ++ " " ++ toString r.year := by
  intro rs
  induction rs with
  | nil =>
    intro j lab sub h _
    simp [labelTrackAux] at h
  | cons r rs ih =>
    intro j lab sub h hprev
    cases j with
    | zero =>
      have hhead : (labelStep "" r).1 = some (lab, sub) := by
        have hc : (labelTrackAux "" (r :: rs)).get? 0 = some ((labelStep "" r).1) := by
          rw [labelTrackAux_cons]
          exact List.get?_cons_zero
        rw [hc] at h
        exact Option.some.inj h
      simp only [labelStep] at hhead
      split at hhead
      · rename_i hcond
        have hday : r.day = 1 := by
          rcases hcond.2 with h' | h'
          · exact absurd rfl h'
          · exact h'
        have hml : mkLabel "" r = ((monthName r.month).take 3 ++ " " ++ toString r.year, false) := by
          unfold mkLabel
          rw [if_neg (by omega), if_pos (Or.inr rfl)]
        rw [hml] at hhead
        have hpair := Option.some.inj hhead
        refine ⟨r, rfl, hday, ?_, ?_⟩
        · exact (congrArg Prod.snd hpair).symm
        · exact (congrArg Prod.fst hpair).symm
      · exact absurd hhead (by simp)
    | succ k =>
      have h0 := hprev 0 (Nat.succ_pos k)
      have hc : (labelTrackAux "" (r :: rs)).get? 0 = some ((labelStep "" r).1) := by
        rw [labelTrackAux_cons]
        exact List.get?_cons_zero
      rw [hc] at h0
      have hnone : (labelStep "" r).1 = none := Option.some.inj h0
      simp only [labelStep] at hnone
      split at hnone
      · exact absurd hnone (by simp)
      · rename_i hncond
        have hstep : labelStep "" r = (none, "") := by
          simp only [labelStep]
          rw [if_neg hncond]
        have htail : ∀ m : ℕ, (labelTrackAux "" (r :: rs)).get? (m + 1)
            = (labelTrackAux "" rs).get? m := by
          intro m
          rw [labelTrackAux_cons, hstep]
          exact List.get?_cons_succ
        rw [htail k] at h
        have hprev' : ∀ k', k' < k → (labelTrackAux "" rs).get? k' = some none := by
          intro k' hk'
          have hp := hprev (k' + 1) (by omega)
          rw [htail k'] at hp
          exact hp
        obtain ⟨r', hr', hday, hsub, hlab⟩ := ih k lab sub h hprev'
        exact ⟨r', by simpa using hr', hday, hsub, hlab⟩

/-- Once some label has been attached (`previous_label` non-empty), a later
candidate is attached exactly when its first three characters differ from
those of the previously attached label. -/
lemma labelStep_attach_iff (prev : String) (r : DateRow) (h : prev ≠ "") :
    ((labelStep prev r).1 ≠ none) ↔ (mkLabel prev r).1.take 3 ≠ prev.take 3 := by
  simp only [labelStep]
  split
  · rename_i hcond
    simp only [ne_eq, reduceCtorEq, not_false_eq_true, true_iff]
    exact hcond.1
  · rename_i hcond
    have hA : ¬((mkLabel prev r).1.take 3 ≠ prev.take 3) :=
      fun hA => hcond ⟨hA, Or.inl h⟩
    simp [hA]

/-- C3: the first label attached on a track always sits on a day-1 point and
reads month abbreviation plus year (four characters for years 1000-9999);
afterwards a candidate is attached exactly when its 3-character prefix
differs from the previously attached label's prefix. -/
theorem C3_first_label_attach :
    (∀ (rs : List DateRow) (j : ℕ) (lab : String) (sub : Bool),
      (labelTrack rs).get? j = some (some (lab, sub)) →
      (∀ k, k < j → (labelTrack rs).get? k = some none) →
      ∃ r, rs.get? j = some r ∧ r.day = 1 ∧ sub = false ∧
        lab = (monthName r.month).take 3 ++ " " ++ toString r.year ∧
        (1000 ≤ r.year → r.year < 10000 → (toString r.year).length = 4))
  ∧ (∀ (prev : String) (r : DateRow), prev ≠ "" →
      (((labelStep prev r).1 ≠ none) ↔ (mkLabel prev r).1.take 3 ≠ prev.take 3)) := by
  constructor
  · intro rs j lab sub h hprev
    obtain ⟨r, hr, hday, hsub, hlab⟩ := labelTrackAux_first rs j lab sub h hprev
    exact ⟨r, hr, hday, hsub, hlab, fun ha hb => repr_length_four r.year ha hb⟩
  · exact labelStep_attach_iff

/-- C3 (witness): on the one-point track for 1 March 2022 the first attached
label is "Mar 2022"; and with previous label "7" the candidate for
1 February 2022 is attached since "Feb" differs from "7". -/
theorem C3_first_label_attach_witness :
    (∃ r, ([⟨1, 3, 2022⟩] : List DateRow).get? 0 = some r ∧ r.day = 1 ∧ false = false ∧
      "Mar 2022" = (monthName r.month).take 3 ++ " " ++ toString r.year ∧
      (1000 ≤ r.year → r.year < 10000 → (toString r.year).length = 4))
  ∧ (((labelStep "7" ⟨1, 2, 2022⟩).1 ≠ none)
      ↔ (mkLabel "7" ⟨1, 2, 2022⟩).1.take 3 ≠ "7".take 3) :=
  ⟨C3_first_label_attach.1 [⟨1, 3, 2022⟩] 0 "Mar 2022" false (by decide)
      (fun k hk => absurd hk (Nat.not_lt_zero k)),
   C3_first_label_attach.2 "7" ⟨1, 2, 2022⟩ (by decide)⟩

/-- A forward RA scan can only report `found` on an occupied bin. -/
lemma scanRaFwd_found (u : ℕ → Bool) (bins sentinel : ℕ) :
    ∀ fuel idx b, scanRaFwd u bins sentinel fuel idx = some (ScanResult.found b) →
      u b = true := by
  intro fuel
  induction fuel with
  | zero => intro idx b h; simp [scanRaFwd] at h
  | succ fuel ih =>
    intro idx b h
    rw [scanRaFwd] at h
    split at h
    · rename_i hu
      simp only [Option.some.injEq, ScanResult.found.injEq] at h
      exact h ▸ hu
    · split at h
      · simp at h
      · exact ih _ b h

/-- A forward RA scan reports `disabled` only with the sentinel unoccupied. -/
lemma scanRaFwd_disabled (u : ℕ → Bool) (bins sentinel : ℕ) :
    ∀ fuel idx, scanRaFwd u bins sentinel fuel idx = some ScanResult.disabled →
      u sentinel = false := by
  intro fuel
  induction fuel with
  | zero => intro idx h; simp [scanRaFwd] at h
  | succ fuel ih =>
    intro idx h
    rw [scanRaFwd] at h
    split at h
    · simp at h
    · split at h
      · rename_i hu hsent
        subst hsent
        exact Bool.eq_false_iff.mpr hu
      · exact ih _ h

/-- A backward RA scan can only report `found` on an occupied bin. -/
lemma scanRaBack_found (u : ℕ → Bool) (bins sentinel : ℕ) :
    ∀ fuel idx b, scanRaBack u bins sentinel fuel idx = some (ScanResult.found b) →
      u b = true := by
  intro fuel
  induction fuel with
  | zero => intro idx b h; simp [scanRaBack] at h
  | succ fuel ih =>
    intro idx b h
    rw [scanRaBack] at h
    split at h
    · rename_i hu
      simp only [Option.some.injEq, ScanResult.found.injEq] at h
      exact h ▸ hu
    · split at h
      · simp at h
      · exact ih _ b h

/-- A backward RA scan reports `disabled` only with the sentinel unoccupied. -/
lemma scanRaBack_disabled (u : ℕ → Bool) (bins sentinel : ℕ) :
    ∀ fuel idx, scanRaBack u bins sentinel fuel idx = some ScanResult.disabled →
      u sentinel = false := by
  intro fuel
  induction fuel with
  | zero => intro idx h; simp [scanRaBack] at h
  | succ fuel ih =>
    intro idx h
    rw [scanRaBack] at h
    split at h
    · simp at h
    · split at h
      · rename_i hu hsent
        subst hsent
        exact Bool.eq_false_iff.mpr hu
      · exact ih _ h

/-- An upward Dec scan can only report `found` on an occupied bin. -/
lemma scanDecUp_found (u : ℕ → Bool) (bins : ℕ) :
    ∀ fuel idx b, scanDecUp u bins fuel idx = some (ScanResult.found b) → u b = true := by
  intro fuel
  induction fuel with
  | zero => intro idx b h; simp [scanDecUp] at h
  | succ fuel ih =>
    intro idx b h
    rw [scanDecUp] at h
    split at h
    · rename_i hu
      simp only [Option.some.injEq, ScanResult.found.injEq] at h
      exact h ▸ hu
    · split at h
      · simp at h
      · exact ih _ b h

/-- An upward Dec scan reports `disabled` only with the last bin unoccupied. -/
lemma scanDecUp_disabled (u : ℕ → Bool) (bins : ℕ) :
    ∀ fuel idx, scanDecUp u bins fuel idx = some ScanResult.disabled →
      u (bins - 1) = false := by
  intro fuel
  induction fuel with
  | zero => intro idx h; simp [scanDecUp] at h
  | succ fuel ih =>
    intro idx h
    rw [scanDecUp] at h
    split at h
    · simp at h
    · split at h
      · rename_i hu hsent
        subst hsent
        exact Bool.eq_false_iff.mpr hu
      · exact ih _ h

/-- A downward Dec scan can only report `found` on an occupied bin. -/
lemma scanDecDown_found (u : ℕ → Bool) :
    ∀ fuel idx b, scanDecDown u fuel idx = some (ScanResult.found b) → u b = true := by
  intro fuel
  induction fuel with
  | zero => intro idx b h; simp [scanDecDown] at h
  | succ fuel ih =>
    intro idx b h
    rw [scanDecDown] at h
    split at h
    · rename_i hu
      simp only [Option.some.injEq, ScanResult.found.injEq] at h
      exact h ▸ hu
    · split at h
      · simp at h
      · exact ih _ b h

/-- A downward Dec scan reports `disabled` only with bin 0 unoccupied. -/
lemma scanDecDown_disabled (u : ℕ → Bool) :
    ∀ fuel idx, scanDecDown u fuel idx = some ScanResult.disabled → u 0 = false := by
  intro fuel
  induction fuel with
  | zero => intro idx h; simp [scanDecDown] at h
  | succ fuel ih =>
    intro idx h
    rw [scanDecDown] at h
    split at h
    · simp at h
    · split at h
      · rename_i hu hsent
        subst hsent
        exact Bool.eq_false_iff.mpr hu
      · exact ih _ h

/-- Termination measure for the forward RA scan: with enough fuel for the
forward distance to the sentinel, the scan completes. -/
lemma scanRaFwd_total192 (u : ℕ → Bool) (sentinel : ℕ) (hs : sentinel < 192) :
    ∀ n fuel idx, n < fuel → idx < 192 → (sentinel + 192 - idx) % 192 ≤ n →
      (scanRaFwd u 192 sentinel fuel idx).isSome = true := by
  intro n
  induction n with
  | zero =>
    intro fuel idx hf hidx hd
    obtain ⟨f, rfl⟩ : ∃ f, fuel = f + 1 := ⟨fuel - 1, by omega⟩
    have his : idx = sentinel := by omega
    subst his
    rw [scanRaFwd]
    split
    · simp
    · rw [if_pos rfl]
      simp
  | succ n ih =>
    intro fuel idx hf hidx hd
    obtain ⟨f, rfl⟩ : ∃ f, fuel = f + 1 := ⟨fuel - 1, by omega⟩
    rw [scanRaFwd]
    by_cases hu : u idx
    · rw [if_pos hu]
      simp
    · rw [if_neg hu]
      by_cases hsent : idx = sentinel
      · rw [if_pos hsent]
        simp
      · rw [if_neg hsent]
        exact ih f ((idx + 1) % 192) (by omega) (by omega) (by omega)

/-- The forward RA scan terminates from any start index up to 192 within
fuel 194. -/
lemma scanRaFwd_isSome (u : ℕ → Bool) (sentinel start : ℕ)
    (hs : sentinel < 192) (hstart : start ≤ 192) :
    (scanRaFwd u 192 sentinel 194 start).isSome = true := by
  by_cases h192 : start < 192
  · exact scanRaFwd_total192 u sentinel hs 191 194 start (by omega) h192 (by omega)
  · have heq : start = 192 := by omega
    subst heq
    rw [scanRaFwd]
    by_cases hu : u 192
    · rw [if_pos hu]
      simp
    · rw [if_neg hu]
      rw [if_neg (by omega : ¬(192 = sentinel))]
      have h1 : (192 + 1) % 192 = 1 := by norm_num
      rw [h1]
      exact scanRaFwd_total192 u sentinel hs 191 193 1 (by omega) (by omega) (by omega)

/-- Termination measure for the backward RA scan: with enough fuel for the
backward distance to the sentinel, the scan completes. -/
lemma scanRaBack_total192 (u : ℕ → Bool) (sentinel : ℕ) (hs : sentinel < 192) :
    ∀ n fuel idx, n < fuel → idx < 192 → (idx + 192 - sentinel) % 192 ≤ n →
      (scanRaBack u 192 sentinel fuel idx).isSome = true := by
  intro n
  induction n with
  | zero =>
    intro fuel idx hf hidx hd
    obtain ⟨f, rfl⟩ : ∃ f, fuel = f + 1 := ⟨fuel - 1, by omega⟩
    have his : idx = sentinel := by omega
    subst his
    rw [scanRaBack]
    split
    · simp
    · rw [if_pos rfl]
      simp
  | succ n ih =>
    intro fuel idx hf hidx hd
    obtain ⟨f, rfl⟩ : ∃ f, fuel = f + 1 := ⟨fuel - 1, by omega⟩
    rw [scanRaBack]
    by_cases hu : u idx
    · rw [if_pos hu]
      simp
    · rw [if_neg hu]
      by_cases hsent : idx = sentinel
      · rw [if_pos hsent]
        simp
      · rw [if_neg hsent]
        exact ih f ((idx + 192 - 1) % 192) (by omega) (by omega) (by omega)

/-- The upward Dec scan terminates from any start index at most 143 within
fuel exceeding the distance to the last bin. -/
lemma scanDecUp_total144 (u : ℕ → Bool) :
    ∀ fuel idx, idx ≤ 143 → 143 - idx < fuel →
      (scanDecUp u 144 fuel idx).isSome = true := by
  intro fuel
  induction fuel with
  | zero => intro idx h1 h2; omega
  | succ fuel ih =>
    intro idx h1 h2
    rw [scanDecUp]
    by_cases hu : u idx
    · rw [if_pos hu]
      simp
    · rw [if_neg hu]
      by_cases hend : idx = 144 - 1
      · rw [if_pos hend]
        simp
      · rw [if_neg hend]
        exact ih (idx + 1) (by omega) (by omega)

/-- The downward Dec scan terminates from any start index below the fuel. -/
lemma scanDecDown_total (u : ℕ → Bool) :
    ∀ fuel idx, idx < fuel → (scanDecDown u fuel idx).isSome = true := by
  intro fuel
  induction fuel with
  | zero => intro idx h; omega
  | succ fuel ih =>
    intro idx h
    rw [scanDecDown]
    by_cases hu : u idx
    · rw [if_pos hu]
      simp
    · rw [if_neg hu]
      by_cases h0 : idx = 0
      · rw [if_pos h0]
        simp
      · rw [if_neg h0]
        exact ih (idx - 1) (by omega)

/-- C5: each of the four bounding scans (RA forward from one bin past the
antipodal bin, RA backward from the antipodal bin, Dec upward from bin 0,
Dec downward from the last bin) terminates on every occupancy grid, either
at an occupied bin (`found`, and that bin is occupied) or by reaching its
sentinel unoccupied and disabling autoscale (`disabled`).  The hypotheses
say that the centroid and the normalised antipodal RA bins lie in range, as
the code arranges for the antipodal bin and as a centroid RA in `[0, 2π)`
gives for the centroid bin. -/
theorem C5_scan_termination (raU decU : ℕ → Bool) (ra_centre_bin ra_anti_centre_bin : ℕ)
    (hc : ra_centre_bin < raBins) (ha : ra_anti_centre_bin < raBins) :
    ((scanRaFwd raU raBins ra_centre_bin (raBins + 2) (raFwdStart ra_anti_centre_bin)).isSome = true
      ∧ (∀ b, scanRaFwd raU raBins ra_centre_bin (raBins + 2) (raFwdStart ra_anti_centre_bin)
            = some (ScanResult.found b) → raU b = true)
      ∧ (scanRaFwd raU raBins ra_centre_bin (raBins + 2) (raFwdStart ra_anti_centre_bin)
            = some ScanResult.disabled → raU ra_centre_bin = false))
  ∧ ((scanRaBack raU raBins ra_centre_bin (raBins + 2) ra_anti_centre_bin).isSome = true
      ∧ (∀ b, scanRaBack raU raBins ra_centre_bin (raBins + 2) ra_anti_centre_bin
            = some (ScanResult.found b) → raU b = true)
      ∧ (scanRaBack raU raBins ra_centre_bin (raBins + 2) ra_anti_centre_bin
            = some ScanResult.disabled → raU ra_centre_bin = false))
  ∧ ((scanDecUp decU decBins (decBins + 2) 0).isSome = true
      ∧ (∀ b, scanDecUp decU decBins (decBins + 2) 0
            = some (ScanResult.found b) → decU b = true)
      ∧ (scanDecUp decU decBins (decBins + 2) 0
            = some ScanResult.disabled → decU (decBins - 1) = false))
  ∧ ((scanDecDown decU (decBins + 2) (decBins - 1)).isSome = true
      ∧ (∀ b, scanDecDown decU (decBins + 2) (decBins - 1)
            = some (ScanResult.found b) → decU b = true)
      ∧ (scanDecDown decU (decBins + 2) (decBins - 1)
            = some ScanResult.disabled → decU 0 = false)) := by
  have hc' : ra_centre_bin < 192 := hc
  have ha' : ra_anti_centre_bin < 192 := ha
  refine ⟨⟨?_, fun b => scanRaFwd_found raU raBins ra_centre_bin (raBins + 2) _ b,
            scanRaFwd_disabled raU raBins ra_centre_bin (raBins + 2) _⟩,
          ⟨?_, fun b => scanRaBack_found raU raBins ra_centre_bin (raBins + 2) _ b,
            scanRaBack_disabled raU raBins ra_centre_bin (raBins + 2) _⟩,
          ⟨?_, fun b => scanDecUp_found decU decBins (decBins + 2) 0 b,
            scanDecUp_disabled decU decBins (decBins + 2) 0⟩,
          ⟨?_, fun b => scanDecDown_found decU (decBins + 2) (decBins - 1) b,
            scanDecDown_disabled decU (decBins + 2) (decBins - 1)⟩⟩
  · exact scanRaFwd_isSome raU ra_centre_bin (raFwdStart ra_anti_centre_bin) hc'
      (by unfold raFwdStart; omega)
  · exact scanRaBack_total192 raU ra_centre_bin hc' 191 194 ra_anti_centre_bin
      (by omega) ha' (by omega)
  · exact scanDecUp_total144 decU 146 0 (by omega) (by omega)
  · exact scanDecDown_total decU 146 143 (by omega)

/-- C5 (witness): with the empty occupancy grid, centroid bin 5 and
antipodal bin 3, all four scans terminate (each here by disabling). -/
theorem C5_scan_termination_witness :
    ((scanRaFwd emptyUsage raBins 5 (raBins + 2) (raFwdStart 3)).isSome = true
      ∧ (∀ b, scanRaFwd emptyUsage raBins 5 (raBins + 2) (raFwdStart 3)
            = some (ScanResult.found b) → emptyUsage b = true)
      ∧ (scanRaFwd emptyUsage raBins 5 (raBins + 2) (raFwdStart 3)
            = some ScanResult.disabled → emptyUsage 5 = false))
  ∧ ((scanRaBack emptyUsage raBins 5 (raBins + 2) 3).isSome = true
      ∧ (∀ b, scanRaBack emptyUsage raBins 5 (raBins + 2) 3
            = some (ScanResult.found b) → emptyUsage b = true)
      ∧ (scanRaBack emptyUsage raBins 5 (raBins + 2) 3
            = some ScanResult.disabled → emptyUsage 5 = false))
  ∧ ((scanDecUp emptyUsage decBins (decBins + 2) 0).isSome = true
      ∧ (∀ b, scanDecUp emptyUsage decBins (decBins + 2) 0
            = some (ScanResult.found b) → emptyUsage b = true)
      ∧ (scanDecUp emptyUsage decBins (decBins + 2) 0
            = some ScanResult.disabled → emptyUsage (decBins - 1) = false))
  ∧ ((scanDecDown emptyUsage (decBins + 2) (decBins - 1)).isSome = true
      ∧ (∀ b, scanDecDown emptyUsage (decBins + 2) (decBins - 1)
            = some (ScanResult.found b) → emptyUsage b = true)
      ∧ (scanDecDown emptyUsage (decBins + 2) (decBins - 1)
            = some ScanResult.disabled → emptyUsage 0 = false)) :=
  C5_scan_termination emptyUsage emptyUsage 5 3 (by decide) (by decide)

/-- C7 (counterexample): for the full-sky bounding window RA 0h..24h,
Dec -90..90 the rectangular branch is selected with
`angular_width * aspect = 180 > 178`, so the claimed interval
`[-89 + h/2, 89 - h/2] = [1, -1]` is empty: the final `MIN` clamp leaves
`dec0 = -1`, outside the claimed interval (and the plot would span
declination -91 to 89). -/
theorem C7_counterexample :
    angularWidthBase 0 24 (-90) 90 > 110
  ∧ ¬(-89 + (applyViewport sRect 0 24 (-90) 90).angular_width
          * (applyViewport sRect 0 24 (-90) 90).aspect / 2
        ≤ (applyViewport sRect 0 24 (-90) 90).dec0
      ∧ (applyViewport sRect 0 24 (-90) 90).dec0
        ≤ 89 - (applyViewport sRect 0 24 (-90) 90).angular_width
            * (applyViewport sRect 0 24 (-90) 90).aspect / 2) := by
  have hwu : wrapUp (12 : ℚ) = 12 := by
    rw [wrapUp]
    norm_num
  have hwd : wrapDown (12 : ℚ) = 12 := by
    rw [wrapDown]
    norm_num
  have hawb : angularWidthBase 0 24 (-90) 90 = 360 := by
    norm_num [angularWidthBase, max_def]
  have haw : (applyViewport sRect 0 24 (-90) 90).angular_width = 360 := by
    norm_num [applyViewport, sRect, hawb, hwu, hwd, max_def, min_def]
  have has : (applyViewport sRect 0 24 (-90) 90).aspect = 1 / 2 := by
    norm_num [applyViewport, sRect, hawb, hwu, hwd, max_def, min_def]
  have hd0 : (applyViewport sRect 0 24 (-90) 90).dec0 = -1 := by
    norm_num [applyViewport, sRect, hawb, hwu, hwd, max_def, min_def]
  rw [haw, has, hd0, hawb]
  norm_num

/-- C7 (amended): in the rectangular-projection branch the final clamp keeps
`dec0` within `[-89 + h/2, 89 - h/2]` (`h = angular_width * aspect`)
whenever that interval is non-empty, i.e. `h ≤ 178`; when `h > 178` the
interval is empty and the clamp leaves `dec0 = 89 - h/2` below its lower
end. -/
theorem C7_dec0_clamp (s : ChartConfig) (rm rM dm dM : ℚ)
    (hauto : s.ephemeris_autoscale = true)
    (hbranch : angularWidthBase rm rM dm dM > 110) :
    ((applyViewport s rm rM dm dM).angular_width * (applyViewport s rm rM dm dM).aspect ≤ 178 →
      -89 + (applyViewport s rm rM dm dM).angular_width
          * (applyViewport s rm rM dm dM).aspect / 2
        ≤ (applyViewport s rm rM dm dM).dec0
      ∧ (applyViewport s rm rM dm dM).dec0
        ≤ 89 - (applyViewport s rm rM dm dM).angular_width
            * (applyViewport s rm rM dm dM).aspect / 2)
  ∧ (178 < (applyViewport s rm rM dm dM).angular_width * (applyViewport s rm rM dm dM).aspect →
      (applyViewport s rm rM dm dM).dec0
        = 89 - (applyViewport s rm rM dm dM).angular_width
            * (applyViewport s rm rM dm dM).aspect / 2) := by
  constructor
  · simp only [applyViewport, hauto, hbranch, if_true, ite_true, eq_self_iff_true]
    split_ifs with h22 htall <;>
      (intro h
       constructor
       · refine le_min (le_max_right _ _) ?_
         linarith
       · exact min_le_right _ _)
  · simp only [applyViewport, hauto, hbranch, if_true, ite_true, eq_self_iff_true]
    split_ifs with h22 htall <;>
      (intro h
       refine min_eq_right ?_
       refine le_trans ?_ (le_max_right _ _)
       linarith)

/-- C7 (witness): the amended clamp theorem applied to the full-sky window;
there `h = 180 > 178` and `dec0` ends at `89 - h/2 = -1`. -/
theorem C7_dec0_clamp_witness :
    ((applyViewport sRect 0 24 (-90) 90).angular_width
          * (applyViewport sRect 0 24 (-90) 90).aspect ≤ 178 →
      -89 + (applyViewport sRect 0 24 (-90) 90).angular_width
          * (applyViewport sRect 0 24 (-90) 90).aspect / 2
        ≤ (applyViewport sRect 0 24 (-90) 90).dec0
      ∧ (applyViewport sRect 0 24 (-90) 90).dec0
        ≤ 89 - (applyViewport sRect 0 24 (-90) 90).angular_width
            * (applyViewport sRect 0 24 (-90) 90).aspect / 2)
  ∧ (178 < (applyViewport sRect 0 24 (-90) 90).angular_width
          * (applyViewport sRect 0 24 (-90) 90).aspect →
      (applyViewport sRect 0 24 (-90) 90).dec0
        = 89 - (applyViewport sRect 0 24 (-90) 90).angular_width
            * (applyViewport sRect 0 24 (-90) 90).aspect / 2) :=
  C7_dec0_clamp sRect 0 24 (-90) 90 rfl
    (by norm_num [angularWidthBase, max_def])

/-- The viewport planner never writes the autoscale flag. -/
lemma applyViewport_autoscale (s : ChartConfig) (rm rM dm dM : ℚ) :
    (applyViewport s rm rM dm dM).ephemeris_autoscale = s.ephemeris_autoscale := by
  simp only [applyViewport]
  split_ifs <;> rfl

/-- With autoscale off, the viewport planner is the identity. -/
lemma applyViewport_disabled (s : ChartConfig) (rm rM dm dM : ℚ)
    (h : s.ephemeris_autoscale = false) :
    applyViewport s rm rM dm dM = s := by
  simp [applyViewport, h]

/-- If the planner's result has autoscale off, the planner was the identity. -/
lemma applyViewport_result_disabled (s : ChartConfig) (rm rM dm dM : ℚ)
    (h : (applyViewport s rm rM dm dM).ephemeris_autoscale = false) :
    applyViewport s rm rM dm dM = s :=
  applyViewport_disabled s rm rM dm dM ((applyViewport_autoscale s rm rM dm dM) ▸ h)

/-- C9: whenever autoscale ends up disabled — preset off by the caller or
cleared by a failed bounding scan — `ephemerides_fetch` leaves every
caller-preconfigured viewport and style field unchanged. -/
theorem C9_disabled_preserves (s : ChartConfig) (raU decU : ℕ → Bool)
    (ra_centre_bin ra_anti_centre_bin : ℕ)
    (h : (fetchAutoscale s raU decU ra_centre_bin ra_anti_centre_bin).ephemeris_autoscale
          = false) :
    (fetchAutoscale s raU decU ra_centre_bin ra_anti_centre_bin).ra0 = s.ra0
  ∧ (fetchAutoscale s raU decU ra_centre_bin ra_anti_centre_bin).dec0 = s.dec0
  ∧ (fetchAutoscale s raU decU ra_centre_bin ra_anti_centre_bin).projection = s.projection
  ∧ (fetchAutoscale s raU decU ra_centre_bin ra_anti_centre_bin).angular_width
      = s.angular_width
  ∧ (fetchAutoscale s raU decU ra_centre_bin ra_anti_centre_bin).aspect = s.aspect
  ∧ (fetchAutoscale s raU decU ra_centre_bin ra_anti_centre_bin).width = s.width
  ∧ (fetchAutoscale s raU decU ra_centre_bin ra_anti_centre_bin).font_size = s.font_size
  ∧ (fetchAutoscale s raU decU ra_centre_bin ra_anti_centre_bin).mag_min = s.mag_min
  ∧ (fetchAutoscale s raU decU ra_centre_bin ra_anti_centre_bin).maximum_star_label_count
      = s.maximum_star_label_count
  ∧ (fetchAutoscale s raU decU ra_centre_bin ra_anti_centre_bin).dso_names = s.dso_names
  ∧ (fetchAutoscale s raU decU ra_centre_bin ra_anti_centre_bin).star_flamsteed_labels
      = s.star_flamsteed_labels := by
  simp only [fetchAutoscale] at h ⊢
  rw [applyViewport_result_disabled _ _ _ _ _ h]
  exact ⟨rfl, rfl, rfl, rfl, rfl, rfl, rfl, rfl, rfl, rfl, rfl⟩

/-- C9 (witness): with the empty grid every scan disables autoscale, and the
preset configuration's viewport and style fields survive untouched. -/
theorem C9_disabled_preserves_witness :
    (fetchAutoscale sPreset emptyUsage emptyUsage 0 0).ephemeris_autoscale = false
  ∧ ((fetchAutoscale sPreset emptyUsage emptyUsage 0 0).ra0 = sPreset.ra0
    ∧ (fetchAutoscale sPreset emptyUsage emptyUsage 0 0).dec0 = sPreset.dec0
    ∧ (fetchAutoscale sPreset emptyUsage emptyUsage 0 0).projection = sPreset.projection
    ∧ (fetchAutoscale sPreset emptyUsage emptyUsage 0 0).angular_width
        = sPreset.angular_width
    ∧ (fetchAutoscale sPreset emptyUsage emptyUsage 0 0).aspect = sPreset.aspect
    ∧ (fetchAutoscale sPreset emptyUsage emptyUsage 0 0).width = sPreset.width
    ∧ (fetchAutoscale sPreset emptyUsage emptyUsage 0 0).font_size = sPreset.font_size
    ∧ (fetchAutoscale sPreset emptyUsage emptyUsage 0 0).mag_min = sPreset.mag_min
    ∧ (fetchAutoscale sPreset emptyUsage emptyUsage 0 0).maximum_star_label_count
        = sPreset.maximum_star_label_count
    ∧ (fetchAutoscale sPreset emptyUsage emptyUsage 0 0).dso_names = sPreset.dso_names
    ∧ (fetchAutoscale sPreset emptyUsage emptyUsage 0 0).star_flamsteed_labels
        = sPreset.star_flamsteed_labels) :=
  ⟨by decide, C9_disabled_preserves sPreset emptyUsage emptyUsage 0 0 (by decide)⟩

end StarCharter
